import Mathlib

/-!
Shallow embedding of the recording subsystem of `terminal-mcp`
(`src/recording/recorder.ts`, `src/recording/manager.ts`,
`src/recording/types.ts`), together with theorems settling the
specification claims about it.

Modelling conventions:
* Wall-clock time (`Date.now()`, milliseconds) is a rational number
  threaded explicitly into every operation that reads the clock.
* The file system is an association list from paths to string contents.
* A Node write stream is modelled by an open/closed flag (`Option`) plus a
  `broken` flag: writes to a broken stream are lost but, exactly as in the
  source, do not alter control flow (Node reports stream errors
  asynchronously, `write` itself does not throw).
* `setTimeout` timers are modelled by their absolute deadline.
* Fallible operations are state transformers returning
  `Except String α × state`: on an error thrown before any mutation the
  returned state components equal the inputs.
-/

namespace TerminalMcp

/-- `RecordingMode` from `types.ts`. -/
inductive RecordingMode
  | always
  | onFailure
  | off
deriving DecidableEq, Repr

/-- `RecordingFormat` from `types.ts` (asciicast v2 is the only format). -/
inductive RecordingFormat
  | v2
deriving DecidableEq, Repr

/-- `StopReason` from `types.ts`. -/
inductive StopReason
  | explicit
  | session_exit
  | max_duration
  | inactivity
deriving DecidableEq, Repr

/-- Optional environment hints recorded in the asciicast header. -/
structure EnvHints where
  shell : Option String
  term : Option String
deriving DecidableEq, Repr

/-- The file system: an association list from path to file content. -/
abbrev FS := List (String × String)

/-- Look up a file's content. -/
def fsRead (fs : FS) (p : String) : Option String :=
  (fs.find? (fun e => e.1 == p)).map (fun e => e.2)

/-- Create or truncate a file (`flags: 'w'`). -/
def fsWrite (fs : FS) (p : String) (content : String) : FS :=
  (p, content) :: fs.filter (fun e => e.1 != p)

/-- Append data to an existing file; no-op when the file is absent. -/
def fsAppend (fs : FS) (p : String) (data : String) : FS :=
  match fsRead fs p with
  | some c => fsWrite fs p (c ++ data)
  | none => fs

/-- Delete a file if present (`unlinkSync` with the missing case tolerated). -/
def fsDelete (fs : FS) (p : String) : FS :=
  fs.filter (fun e => e.1 != p)

/-- State of an open write stream: only whether writes are failing. -/
structure WriteStream where
  broken : Bool
deriving DecidableEq, Repr

/-- `RecordingMetadata` from `types.ts`. -/
structure RecordingMetadata where
  id : String
  path : String
  tempPath : String
  startTime : ℚ
  endTime : ℚ
  durationMs : ℚ
  bytesWritten : ℕ
  exitCode : Option ℤ
  mode : RecordingMode
  saved : Bool
  stopReason : Option StopReason
deriving DecidableEq, Repr

/-- The `Recorder` instance state (`recorder.ts` fields). -/
structure Recorder where
  id : String
  mode : RecordingMode
  format : RecordingFormat
  outputDir : String
  tempPath : String
  finalPath : String
  writeStream : Option WriteStream
  startTime : ℚ
  bytesWritten : ℕ
  finalized : Bool
  idleTimeLimit : ℚ
  lastEventTime : ℚ
  adjustedElapsed : ℚ
  maxDuration : ℚ
  inactivityTimeout : ℚ
  maxDurationTimer : Option ℚ
  inactivityTimer : Option ℚ
  stopReason : StopReason
deriving DecidableEq, Repr

/-- `new Recorder(id, mode, outputDir, format, idleTimeLimit, maxDuration,
inactivityTimeout)`; `nowMs` is `Date.now()` at construction time, used in
the generated final file name. -/
def Recorder.make (id : String) (mode : RecordingMode) (outputDir : String)
    (format : RecordingFormat) (idleTimeLimit : ℚ) (maxDuration : ℚ)
    (inactivityTimeout : ℚ) (nowMs : ℚ) : Recorder :=
  { id := id
    mode := mode
    format := format
    outputDir := outputDir
    tempPath := "/tmp/terminal-mcp-recording-" ++ id ++ ".cast"
    finalPath := outputDir ++ "/terminal-" ++ toString nowMs.num ++ "-" ++ id ++ ".cast"
    writeStream := none
    startTime := 0
    bytesWritten := 0
    finalized := false
    idleTimeLimit := idleTimeLimit
    lastEventTime := 0
    adjustedElapsed := 0
    maxDuration := maxDuration
    inactivityTimeout := inactivityTimeout
    maxDurationTimer := none
    inactivityTimer := none
    stopReason := StopReason.explicit }

/-- Digits of the fractional part `r / d` (long division), fuel-bounded;
models JavaScript's printing of the exact decimal values that arise from
millisecond arithmetic. -/
def fracDigitsAux : ℕ → ℕ → ℕ → String
  | 0, _, _ => ""
  | fuel + 1, r, d =>
      if r = 0 then ""
      else
        let r10 := r * 10
        (Nat.digitChar (r10 / d)).toString ++ fracDigitsAux fuel (r10 % d) d

/-- Decimal representation of a nonnegative rational. -/
def jsNumAux (q : ℚ) : String :=
  let ip : ℕ := q.num.toNat / q.den
  let rem : ℕ := q.num.toNat % q.den
  if rem = 0 then toString ip
  else toString ip ++ "." ++ fracDigitsAux 30 rem q.den

/-- `JSON.stringify` applied to a number. -/
def jsNum (q : ℚ) : String :=
  if q < 0 then "-" ++ jsNumAux (-q) else jsNumAux q

/-- JSON escaping of one character, as in `JSON.stringify`. -/
def jsonEscapeChar (c : Char) : String :=
  if c = '"' then "\\\""
  else if c = '\\' then "\\\\"
  else if c = '\n' then "\\n"
  else if c = '\r' then "\\r"
  else if c = '\t' then "\\t"
  else if c.toNat = 8 then "\\b"
  else if c.toNat = 12 then "\\f"
  else if c.toNat < 32 then
    "\\u00" ++ (Nat.digitChar (c.toNat / 16)).toString ++ (Nat.digitChar (c.toNat % 16)).toString
  else c.toString

/-- JSON escaping of a string body. -/
def jsonEscape (s : String) : String :=
  String.join (s.data.map jsonEscapeChar)

/-- A JSON string literal. -/
def jsonQuote (s : String) : String :=
  "\"" ++ jsonEscape s ++ "\""

/-- `JSON.stringify` of the optional `env` object of the header. -/
def serializeEnv (env : EnvHints) : String :=
  let fields :=
    (match env.shell with
     | some s => ["\"SHELL\":" ++ jsonQuote s]
     | none => []) ++
    (match env.term with
     | some t => ["\"TERM\":" ++ jsonQuote t]
     | none => [])
  "\x7b" ++ String.intercalate "," fields ++ "\x7d"

/-- `JSON.stringify` of the asciicast v2 header written by `start`
(key order follows object insertion: version, width, height, timestamp,
then `env` when present). -/
def serializeHeader (width height : ℕ) (timestamp : ℤ) (env : Option EnvHints) : String :=
  "\x7b\"version\":2,\"width\":" ++ toString width ++
  ",\"height\":" ++ toString height ++
  ",\"timestamp\":" ++ toString timestamp ++
  (match env with
   | some e => ",\"env\":" ++ serializeEnv e
   | none => "") ++ "\x7d"

/-- `JSON.stringify` of an asciicast event `[time, kind, data]`;
`kind` is `"o"` or `"r"`. -/
def serializeEvent (time : ℚ) (kind : String) (data : String) : String :=
  "[" ++ jsNum time ++ "," ++ jsonQuote kind ++ "," ++ jsonQuote data ++ "]"

/-- UTF-8 byte length (`Buffer.byteLength(data, 'utf8')`). -/
def utf8Len (s : String) : ℕ := s.utf8ByteSize

/-- `Recorder.writeLine`: appends `line + '\n'` to the stream (lost when the
stream is failing) and counts the bytes; no-op when no stream is open. -/
def Recorder.writeLine (r : Recorder) (fs : FS) (line : String) : Recorder × FS :=
  match r.writeStream with
  | none => (r, fs)
  | some ws =>
    let data := line ++ "\n"
    let fs' := if ws.broken then fs else fsAppend fs r.tempPath data
    ({ r with bytesWritten := r.bytesWritten + utf8Len data }, fs')

/-- `Recorder.isActive`. -/
def Recorder.isActive (r : Recorder) : Bool :=
  r.writeStream.isSome && !r.finalized

/-- `Recorder.start(width, height, env?)`. -/
def Recorder.start (r : Recorder) (fs : FS) (nowMs : ℚ) (width height : ℕ)
    (env : Option EnvHints) : Except String Unit × Recorder × FS :=
  if r.writeStream.isSome then
    (Except.error "Recording already started", r, fs)
  else
    let r1 := { r with startTime := nowMs, writeStream := some { broken := false } }
    let fs1 := fsWrite fs r1.tempPath ""
    let header := serializeHeader width height ⌊nowMs / 1000⌋ env
    let (r2, fs2) := r1.writeLine fs1 header
    let r3 :=
      if r2.maxDuration > 0 then
        { r2 with maxDurationTimer := some (nowMs + r2.maxDuration * 1000) }
      else r2
    let r4 :=
      if r3.inactivityTimeout > 0 then
        { r3 with inactivityTimer := some (nowMs + r3.inactivityTimeout * 1000) }
      else r3
    (Except.ok (), r4, fs2)

/-- `Recorder.getElapsedSeconds`: the elapsed-time normalization algorithm.
Returns the logical timestamp and the updated recorder. -/
def Recorder.getElapsedSeconds (r : Recorder) (nowMs : ℚ) : ℚ × Recorder :=
  if r.lastEventTime = 0 then
    let adj := (nowMs - r.startTime) / 1000
    (adj, { r with lastEventTime := nowMs, adjustedElapsed := adj })
  else
    let idleTime := (nowMs - r.lastEventTime) / 1000
    let adj :=
      if r.idleTimeLimit > 0 ∧ idleTime > r.idleTimeLimit then
        r.adjustedElapsed + r.idleTimeLimit
      else
        r.adjustedElapsed + idleTime
    (adj, { r with lastEventTime := nowMs, adjustedElapsed := adj })

/-- `Recorder.recordOutput(data)`. -/
def Recorder.recordOutput (r : Recorder) (fs : FS) (nowMs : ℚ) (data : String) :
    Recorder × FS :=
  if r.writeStream.isNone || r.finalized then (r, fs)
  else
    let r1 :=
      if r.inactivityTimeout > 0 ∧ r.inactivityTimer.isSome then
        { r with inactivityTimer := some (nowMs + r.inactivityTimeout * 1000) }
      else r
    let p := r1.getElapsedSeconds nowMs
    (p.2).writeLine fs (serializeEvent p.1 "o" data)

/-- `Recorder.recordResize(cols, rows)`. -/
def Recorder.recordResize (r : Recorder) (fs : FS) (nowMs : ℚ) (cols rows : ℕ) :
    Recorder × FS :=
  if r.writeStream.isNone || r.finalized then (r, fs)
  else
    let p := r.getElapsedSeconds nowMs
    (p.2).writeLine fs (serializeEvent p.1 "r" (toString cols ++ "x" ++ toString rows))

/-- The persistence decision inside `finalize`:
`mode === 'always' || (mode === 'on-failure' && exitCode !== 0 && exitCode !== null)`. -/
def Recorder.shouldSave (r : Recorder) (exitCode : Option ℤ) : Bool :=
  r.mode = RecordingMode.always ||
    (r.mode = RecordingMode.onFailure && exitCode != some 0 && exitCode != none)

/-- The serialized name of a stop reason. -/
def stopReasonStr : StopReason → String
  | StopReason.explicit => "explicit"
  | StopReason.session_exit => "session_exit"
  | StopReason.max_duration => "max_duration"
  | StopReason.inactivity => "inactivity"

/-- `JSON.stringify(x)` for a nullable exit code. -/
def jsExitCode : Option ℤ → String
  | some c => toString c
  | none => "null"

/-- `JSON.stringify(meta, null, 2)`: the metadata side-file content. -/
def serializeMeta (exitCode : Option ℤ) (durationMs startTime endTime : ℚ)
    (bytesWritten : ℕ) (stopReason : StopReason) : String :=
  "\x7b\n  \"exitCode\": " ++ jsExitCode exitCode ++
  ",\n  \"durationMs\": " ++ jsNum durationMs ++
  ",\n  \"startTime\": " ++ jsNum startTime ++
  ",\n  \"endTime\": " ++ jsNum endTime ++
  ",\n  \"bytesWritten\": " ++ toString bytesWritten ++
  ",\n  \"stopReason\": " ++ jsonQuote (stopReasonStr stopReason) ++
  "\n\x7d"

/-- `finalPath.replace(/\.cast$/, '.meta.json')`. -/
def metaPathOf (finalPath : String) : String :=
  if finalPath.endsWith ".cast" then
    finalPath.dropRight 5 ++ ".meta.json"
  else finalPath

/-- `Recorder.finalize(exitCode, stopReason?)`. On the error paths the
returned recorder and file system reflect exactly the mutations performed
before the throw (none for the double-finalize guard). -/
def Recorder.finalize (r : Recorder) (fs : FS) (nowMs : ℚ) (exitCode : Option ℤ)
    (stopReason? : Option StopReason) :
    Except String RecordingMetadata × Recorder × FS :=
  if r.finalized then
    (Except.error "Recording already finalized", r, fs)
  else
    let endTime := nowMs
    let durationMs := endTime - r.startTime
    let r1 := { r with
      finalized := true
      maxDurationTimer := none
      inactivityTimer := none }
    let finalStopReason := stopReason?.getD r1.stopReason
    if r1.shouldSave exitCode then
      match fsRead fs r1.tempPath with
      | none =>
        (Except.error "ENOENT", r1, fs)
      | some content =>
        let fs1 := fsWrite (fsDelete fs r1.tempPath) r1.finalPath content
        let metaContent := serializeMeta exitCode durationMs r1.startTime endTime
          r1.bytesWritten finalStopReason
        let fs2 := fsWrite fs1 (metaPathOf r1.finalPath) metaContent
        (Except.ok
          { id := r1.id
            path := r1.finalPath
            tempPath := r1.tempPath
            startTime := r1.startTime
            endTime := endTime
            durationMs := durationMs
            bytesWritten := r1.bytesWritten
            exitCode := exitCode
            mode := r1.mode
            saved := true
            stopReason := some finalStopReason }, r1, fs2)
    else
      let fs1 := fsDelete fs r1.tempPath
      (Except.ok
        { id := r1.id
          path := ""
          tempPath := r1.tempPath
          startTime := r1.startTime
          endTime := endTime
          durationMs := durationMs
          bytesWritten := r1.bytesWritten
          exitCode := exitCode
          mode := r1.mode
          saved := false
          stopReason := some finalStopReason }, r1, fs1)

/-- `Recorder._autoFinalize(reason)`: the timer callback. Returns the
metadata that would be handed to the auto-finalize callback (none when the
finalized latch was already set). -/
def Recorder.autoFinalize (r : Recorder) (fs : FS) (nowMs : ℚ) (reason : StopReason) :
    Recorder × FS × Option RecordingMetadata :=
  if r.finalized then (r, fs, none)
  else
    let r1 := { r with stopReason := reason }
    let p := r1.finalize fs nowMs none (some reason)
    match p.1 with
    | Except.ok meta => (p.2.1, p.2.2, some meta)
    | Except.error _ => (p.2.1, p.2.2, none)

/-- `RecordingOptions` from `types.ts`, with the manager's defaults filled
in (every field present). -/
structure RecordingOptions where
  mode : RecordingMode
  format : RecordingFormat
  outputDir : String
  idleTimeLimit : ℚ
  maxDuration : ℚ
  inactivityTimeout : ℚ
deriving DecidableEq, Repr

/-- A `Partial<RecordingOptions>` value: every field optional. -/
structure PartialRecordingOptions where
  mode : Option RecordingMode
  format : Option RecordingFormat
  outputDir : Option String
  idleTimeLimit : Option ℚ
  maxDuration : Option ℚ
  inactivityTimeout : Option ℚ
deriving DecidableEq, Repr

/-- The `Partial<RecordingOptions>` with no field set. -/
def PartialRecordingOptions.empty : PartialRecordingOptions :=
  { mode := none, format := none, outputDir := none, idleTimeLimit := none
    maxDuration := none, inactivityTimeout := none }

/-- `getDefaultRecordDir()` from `utils/platform.ts`, evaluated with no
environment overrides set: `~/.local/state/terminal-mcp/recordings`. -/
def getDefaultRecordDir : String :=
  "~/.local/state/terminal-mcp/recordings"

/-- The `RecordingManager` (registry) state: an insertion-ordered map from
id to `Recorder`, plus the default options. -/
structure RecordingManager where
  recordings : List (String × Recorder)
  defaultOptions : RecordingOptions
deriving DecidableEq, Repr

/-- `new RecordingManager(options?)`. -/
def RecordingManager.make (options : Option PartialRecordingOptions) : RecordingManager :=
  { recordings := []
    defaultOptions :=
      { mode := ((options.map (fun o => o.mode)).join).getD RecordingMode.off
        format := ((options.map (fun o => o.format)).join).getD RecordingFormat.v2
        outputDir := ((options.map (fun o => o.outputDir)).join).getD getDefaultRecordDir
        idleTimeLimit := ((options.map (fun o => o.idleTimeLimit)).join).getD 2
        maxDuration := ((options.map (fun o => o.maxDuration)).join).getD 3600
        inactivityTimeout := ((options.map (fun o => o.inactivityTimeout)).join).getD 600 } }

/-- The spread `{...this.defaultOptions, ...options}`. -/
def mergeOptions (defaults : RecordingOptions) (options : Option PartialRecordingOptions) :
    RecordingOptions :=
  match options with
  | none => defaults
  | some o =>
      { mode := o.mode.getD defaults.mode
        format := o.format.getD defaults.format
        outputDir := o.outputDir.getD defaults.outputDir
        idleTimeLimit := o.idleTimeLimit.getD defaults.idleTimeLimit
        maxDuration := o.maxDuration.getD defaults.maxDuration
        inactivityTimeout := o.inactivityTimeout.getD defaults.inactivityTimeout }

/-- `RecordingManager.createRecording(options?)`; `id` stands for the fresh
random identifier from `generateId()` and `nowMs` for `Date.now()` inside
the `Recorder` constructor. Returns the new recorder and the updated
manager. -/
def RecordingManager.createRecording (m : RecordingManager)
    (options : Option PartialRecordingOptions) (id : String) (nowMs : ℚ) :
    Recorder × RecordingManager :=
  let merged := mergeOptions m.defaultOptions options
  let recorder := Recorder.make id merged.mode merged.outputDir merged.format
    merged.idleTimeLimit merged.maxDuration merged.inactivityTimeout nowMs
  (recorder, { m with recordings := m.recordings ++ [(id, recorder)] })

/-- `RecordingManager.getRecording(id)`. -/
def RecordingManager.getRecording (m : RecordingManager) (id : String) : Option Recorder :=
  ((m.recordings.find? (fun e => e.1 == id)).map (fun e => e.2))

/-- `RecordingManager.hasRecording(id)`. -/
def RecordingManager.hasRecording (m : RecordingManager) (id : String) : Bool :=
  (m.recordings.find? (fun e => e.1 == id)).isSome

/-- `RecordingManager.getActiveRecordings()`. -/
def RecordingManager.getActiveRecordings (m : RecordingManager) : List Recorder :=
  (m.recordings.map (fun e => e.2)).filter (fun r => r.isActive)

/-- `RecordingManager.getActiveCount()`. -/
def RecordingManager.getActiveCount (m : RecordingManager) : ℕ :=
  m.getActiveRecordings.length

/-- Iteration core of `recordOutputToAll`: each registered recorder is
visited in map order; active ones receive the event (`recordOutput` itself
re-checks activity), the file system is threaded through. -/
def recordOutputToAllAux (entries : List (String × Recorder)) (fs : FS) (nowMs : ℚ)
    (data : String) : List (String × Recorder) × FS :=
  match entries with
  | [] => ([], fs)
  | (id, r) :: rest =>
    let p := if r.isActive then r.recordOutput fs nowMs data else (r, fs)
    let q := recordOutputToAllAux rest p.2 nowMs data
    ((id, p.1) :: q.1, q.2)

/-- `RecordingManager.recordOutputToAll(data)`. -/
def RecordingManager.recordOutputToAll (m : RecordingManager) (fs : FS) (nowMs : ℚ)
    (data : String) : RecordingManager × FS :=
  let p := recordOutputToAllAux m.recordings fs nowMs data
  ({ m with recordings := p.1 }, p.2)

/-- Iteration core of `recordResizeToAll`. -/
def recordResizeToAllAux (entries : List (String × Recorder)) (fs : FS) (nowMs : ℚ)
    (cols rows : ℕ) : List (String × Recorder) × FS :=
  match entries with
  | [] => ([], fs)
  | (id, r) :: rest =>
    let p := if r.isActive then r.recordResize fs nowMs cols rows else (r, fs)
    let q := recordResizeToAllAux rest p.2 nowMs cols rows
    ((id, p.1) :: q.1, q.2)

/-- `RecordingManager.recordResizeToAll(cols, rows)`. -/
def RecordingManager.recordResizeToAll (m : RecordingManager) (fs : FS) (nowMs : ℚ)
    (cols rows : ℕ) : RecordingManager × FS :=
  let p := recordResizeToAllAux m.recordings fs nowMs cols rows
  ({ m with recordings := p.1 }, p.2)

/-- `RecordingManager.finalizeRecording(id, exitCode, stopReason?)`.
When the recorder's `finalize` throws, the rejection propagates before the
`recordings.delete(id)` line runs, so the map is unchanged. -/
def RecordingManager.finalizeRecording (m : RecordingManager) (fs : FS) (nowMs : ℚ)
    (id : String) (exitCode : Option ℤ) (stopReason? : Option StopReason) :
    Except String (Option RecordingMetadata) × RecordingManager × FS :=
  match m.getRecording id with
  | none => (Except.ok none, m, fs)
  | some r =>
    let p := r.finalize fs nowMs exitCode stopReason?
    match p.1 with
    | Except.error e => (Except.error e, m, fs)
    | Except.ok meta =>
      (Except.ok (some meta),
        { m with recordings := m.recordings.filter (fun e => e.1 != id) }, p.2.2)

/-- Iteration core of `finalizeAll`: entries are visited in map order; an
active one is finalized (collecting its metadata) and every visited entry
is deleted. A rejection aborts the loop before the current entry's delete,
leaving it and the unvisited ones registered. -/
def finalizeAllAux (entries : List (String × Recorder)) (fs : FS) (nowMs : ℚ)
    (exitCode : Option ℤ) (reason : StopReason) :
    Except String (List RecordingMetadata) × List (String × Recorder) × FS :=
  match entries with
  | [] => (Except.ok [], [], fs)
  | (id, r) :: rest =>
    if r.isActive then
      let p := r.finalize fs nowMs exitCode (some reason)
      match p.1 with
      | Except.error e => (Except.error e, (id, p.2.1) :: rest, p.2.2)
      | Except.ok meta =>
        let q := finalizeAllAux rest p.2.2 nowMs exitCode reason
        match q.1 with
        | Except.error e => (Except.error e, q.2.1, q.2.2)
        | Except.ok metas => (Except.ok (meta :: metas), q.2.1, q.2.2)
    else
      finalizeAllAux rest fs nowMs exitCode reason

/-- `RecordingManager.finalizeAll(exitCode, stopReason)` with the reason
given explicitly. -/
def RecordingManager.finalizeAll (m : RecordingManager) (fs : FS) (nowMs : ℚ)
    (exitCode : Option ℤ) (reason : StopReason) :
    Except String (List RecordingMetadata) × RecordingManager × FS :=
  let p := finalizeAllAux m.recordings fs nowMs exitCode reason
  (p.1, { m with recordings := p.2.1 }, p.2.2)

/-- `RecordingManager.finalizeAll(exitCode)` with the defaulted
`stopReason = 'session_exit'`. -/
def RecordingManager.finalizeAllDefault (m : RecordingManager) (fs : FS) (nowMs : ℚ)
    (exitCode : Option ℤ) :
    Except String (List RecordingMetadata) × RecordingManager × FS :=
  m.finalizeAll fs nowMs exitCode StopReason.session_exit

/-- A timer registered by recorder `id` firing at time `nowMs` with the
given reason: the recorder mutates in place (`_autoFinalize`), so the
registry keeps the same entry under the same id; no auto-finalize callback
is registered anywhere in the repository, so nothing else runs. -/
def RecordingManager.timerFire (m : RecordingManager) (fs : FS) (nowMs : ℚ)
    (id : String) (reason : StopReason) :
    RecordingManager × FS × Option RecordingMetadata :=
  match m.getRecording id with
  | none => (m, fs, none)
  | some r =>
    let p := r.autoFinalize fs nowMs reason
    ({ m with recordings := m.recordings.map (fun e => if e.1 == id then (e.1, p.1) else e) },
      p.2.1, p.2.2)

/-! ## Observation helpers -/

/-- The `saved` flag of a successful `finalize`; `none` when it rejects. -/
def savedResult (r : Recorder) (fs : FS) (now : ℚ) (ec : Option ℤ)
    (sr : Option StopReason) : Option Bool :=
  match r.finalize fs now ec sr with
  | (Except.ok meta, _, _) => some meta.saved
  | (Except.error _, _, _) => none

/-! ## C1: persistence policy of finalize -/

/-- C1: for every not-yet-finalized Recording whose temp file exists,
`finalize` yields `saved = true` when `mode = 'always'` for any exit code;
when `mode = 'on-failure'` it yields `saved = false` for exit code 0,
`saved = true` for any non-null non-zero exit code (such as 7), and
`saved = false` for a null exit code. -/
theorem finalize_policy (r : Recorder) (fs : FS) (now : ℚ) (sr : Option StopReason)
    (content : String) (hNotFin : r.finalized = false)
    (hTemp : fsRead fs r.tempPath = some content) :
    (r.mode = RecordingMode.always →
      ∀ ec : Option ℤ, savedResult r fs now ec sr = some true) ∧
    (r.mode = RecordingMode.onFailure →
      savedResult r fs now (some 0) sr = some false ∧
      (∀ c : ℤ, c ≠ 0 → savedResult r fs now (some c) sr = some true) ∧
      savedResult r fs now none sr = some false) := by
  constructor
  · intro hmode ec
    simp [savedResult, Recorder.finalize, hNotFin, Recorder.shouldSave, hmode, hTemp]
  · intro hmode
    refine ⟨?_, ?_, ?_⟩
    · simp [savedResult, Recorder.finalize, hNotFin, Recorder.shouldSave, hmode]
    · intro c hc
      simp [savedResult, Recorder.finalize, hNotFin, Recorder.shouldSave, hmode, hTemp, hc]
    · simp [savedResult, Recorder.finalize, hNotFin, Recorder.shouldSave, hmode]

/-- A concrete `on-failure` recorder used to witness `finalize_policy`. -/
def c1Rec : Recorder :=
  Recorder.make "w1" RecordingMode.onFailure "/out" RecordingFormat.v2 2 3600 600 0

/-- A file system holding `c1Rec`'s temp file. -/
def c1Fs : FS := [("/tmp/terminal-mcp-recording-w1.cast", "x")]

/-- Witness for `finalize_policy` at a concrete `on-failure` recorder:
exit code 0 discards, exit code 7 saves, null exit code discards. -/
theorem finalize_policy_witness :
    (c1Rec.mode = RecordingMode.always →
      ∀ ec : Option ℤ, savedResult c1Rec c1Fs 9 ec none = some true) ∧
    (c1Rec.mode = RecordingMode.onFailure →
      savedResult c1Rec c1Fs 9 (some 0) none = some false ∧
      (∀ c : ℤ, c ≠ 0 → savedResult c1Rec c1Fs 9 (some c) none = some true) ∧
      savedResult c1Rec c1Fs 9 none none = some false) :=
  finalize_policy c1Rec c1Fs 9 none "x" (by decide) (by decide)

/-! ## C3: lifecycle misuse is a synchronous caller error -/

/-- A successful `finalize` sets the finalized latch on the returned
recorder state. -/
lemma finalize_ok_finalized (r : Recorder) (fs : FS) (now : ℚ) (ec : Option ℤ)
    (sr : Option StopReason) (meta : RecordingMetadata) (r1 : Recorder) (fs1 : FS)
    (h : r.finalize fs now ec sr = (Except.ok meta, r1, fs1)) : r1.finalized = true := by
  by_cases hf : r.finalized = true
  · simp [Recorder.finalize, hf] at h
  · simp only [Recorder.finalize, hf, Bool.false_eq_true, if_false,
      Bool.not_eq_true] at h
    split at h
    · split at h
      · simp at h
      · simp only [Prod.mk.injEq, Except.ok.injEq] at h
        obtain ⟨-, h2, -⟩ := h
        subst h2
        rfl
    · simp only [Prod.mk.injEq, Except.ok.injEq] at h
      obtain ⟨-, h2, -⟩ := h
      subst h2
      rfl

/-- C3: starting an already-started Recording errors synchronously, and a
second `finalize` after a successful one errors while leaving the recorder
state and the file system (hence the first call's metadata and the on-disk
artifact it described) unchanged. -/
theorem lifecycle_misuse (r : Recorder) (fs fs1 : FS) (now now1 : ℚ)
    (w h : ℕ) (env : Option EnvHints) (ec ec1 : Option ℤ) (sr sr1 : Option StopReason)
    (meta : RecordingMetadata) (r1 : Recorder) :
    (r.writeStream.isSome = true →
      r.start fs now w h env = (Except.error "Recording already started", r, fs)) ∧
    (r.finalize fs now ec sr = (Except.ok meta, r1, fs1) →
      r1.finalize fs1 now1 ec1 sr1 = (Except.error "Recording already finalized", r1, fs1)) := by
  constructor
  · intro hs
    simp [Recorder.start, hs]
  · intro hfin
    have hlatch := finalize_ok_finalized r fs now ec sr meta r1 fs1 hfin
    simp [Recorder.finalize, hlatch]

/-- A concrete started recorder used to witness `lifecycle_misuse`. -/
def c3Rec0 : Recorder :=
  Recorder.make "w3" RecordingMode.always "/out" RecordingFormat.v2 2 3600 600 100

/-- The state after starting `c3Rec0` at 80×24 on an empty file system. -/
def c3Start := c3Rec0.start [] 100 80 24 none

/-- The state after a first, successful `finalize` of the started recorder. -/
def c3Fin := c3Start.2.1.finalize c3Start.2.2 200 (some 0) none

/-- The metadata returned by the first `finalize` in the C3 witness run. -/
def c3Meta : RecordingMetadata :=
  { id := "w3"
    path := "/out/terminal-100-w3.cast"
    tempPath := "/tmp/terminal-mcp-recording-w3.cast"
    startTime := 100
    endTime := 200
    durationMs := 100
    bytesWritten := 51
    exitCode := some 0
    mode := RecordingMode.always
    saved := true
    stopReason := some StopReason.explicit }

/-- Witness for `lifecycle_misuse`: restarting the started recorder errors,
and a second `finalize` after the successful first one errors, leaving the
post-first-finalize state untouched. -/
theorem lifecycle_misuse_witness :
    c3Start.2.1.start c3Start.2.2 150 80 24 none =
      (Except.error "Recording already started", c3Start.2.1, c3Start.2.2) ∧
    (c3Fin.2.1).finalize c3Fin.2.2 300 (some 1) (some StopReason.explicit) =
      (Except.error "Recording already finalized", c3Fin.2.1, c3Fin.2.2) :=
  ⟨(lifecycle_misuse c3Start.2.1 c3Start.2.2 c3Fin.2.2 150 300 80 24 none
      (some 0) (some 1) none (some StopReason.explicit) c3Meta c3Fin.2.1).1
      (of_decide_eq_true (by with_unfolding_all rfl)),
   (lifecycle_misuse c3Start.2.1 c3Start.2.2 c3Fin.2.2 200 300 80 24 none
      (some 0) (some 1) none (some StopReason.explicit) c3Meta c3Fin.2.1).2
      (by with_unfolding_all rfl)⟩

/-! ## C4: default configuration through the Registry -/

/-- C4 counterexample: a Recording created through a Registry built with no
option overrides has `mode = 'off'`, not `mode = 'always'` as claimed
(`manager.ts` line 21: `mode: options?.mode ?? 'off'`). -/
theorem default_mode_counterexample :
    ¬ (((RecordingManager.make none).createRecording none "id0" 0).1.mode =
        RecordingMode.always) := by
  decide

/-- C4 amended: a Recording created through the Registry with no explicit
option overrides has `mode = 'off'`, `idleTimeLimit = 2`,
`maxDuration = 3600` and `inactivityTimeout = 600`. -/
theorem default_options (id : String) (now : ℚ) :
    (((RecordingManager.make none).createRecording none id now).1.mode =
        RecordingMode.off) ∧
    (((RecordingManager.make none).createRecording none id now).1.idleTimeLimit = 2) ∧
    (((RecordingManager.make none).createRecording none id now).1.maxDuration = 3600) ∧
    (((RecordingManager.make none).createRecording none id now).1.inactivityTimeout = 600) := by
  refine ⟨rfl, rfl, rfl, rfl⟩

/-! ## C7: inactivity-timer frame of recordOutput and recordResize -/

/-- `getElapsedSeconds` never touches the inactivity timer. -/
lemma getElapsedSeconds_inactivityTimer (r : Recorder) (now : ℚ) :
    ((r.getElapsedSeconds now).2).inactivityTimer = r.inactivityTimer := by
  unfold Recorder.getElapsedSeconds
  split <;> rfl

/-- `writeLine` never touches the inactivity timer. -/
lemma writeLine_inactivityTimer (r : Recorder) (fs : FS) (line : String) :
    ((r.writeLine fs line).1).inactivityTimer = r.inactivityTimer := by
  unfold Recorder.writeLine
  split <;> rfl

/-- C7: on an Active recorder with the inactivity mechanism enabled and its
timer armed, `recordOutput` reschedules the inactivity timer to fire
`inactivityTimeout` seconds after the event, while `recordResize` always
leaves the inactivity timer exactly as it was. -/
theorem inactivity_timer_frame (r : Recorder) (fs : FS) (now : ℚ) (data : String)
    (cols rows : ℕ) :
    (r.isActive = true → r.inactivityTimeout > 0 → r.inactivityTimer.isSome = true →
      ((r.recordOutput fs now data).1).inactivityTimer =
        some (now + r.inactivityTimeout * 1000)) ∧
    ((r.recordResize fs now cols rows).1).inactivityTimer = r.inactivityTimer := by
  constructor
  · intro hAct hTo hArmed
    obtain ⟨hsome, hfin⟩ : r.writeStream.isSome = true ∧ r.finalized = false := by
      simpa [Recorder.isActive] using hAct
    have hws : r.writeStream.isNone = false := by
      cases hw : r.writeStream with
      | none => rw [hw] at hsome; simp at hsome
      | some w => rfl
    unfold Recorder.recordOutput
    rw [hws, hfin]
    simp only [Bool.or_self, Bool.false_eq_true, if_false]
    rw [if_pos ⟨hTo, hArmed⟩]
    rw [writeLine_inactivityTimer, getElapsedSeconds_inactivityTimer]
  · unfold Recorder.recordResize
    split
    · rfl
    · rw [writeLine_inactivityTimer, getElapsedSeconds_inactivityTimer]

/-- A concrete active recorder with an armed inactivity timer, used to
witness `inactivity_timer_frame`. -/
def c7Rec : Recorder :=
  ((Recorder.make "w7" RecordingMode.always "/out" RecordingFormat.v2 2 3600 600 0).start
    [] 1000 80 24 none).2.1

/-- Witness for `inactivity_timer_frame`: output at t=5000 ms re-arms the
timer to 5000 + 600·1000, a resize leaves it at its post-start deadline. -/
theorem inactivity_timer_frame_witness :
    ((c7Rec.recordOutput [] 5000 "x").1).inactivityTimer = some (5000 + 600 * 1000) ∧
    ((c7Rec.recordResize [] 5000 100 30).1).inactivityTimer = c7Rec.inactivityTimer := by
  refine ⟨?_, ?_⟩
  · have h := (inactivity_timer_frame c7Rec [] 5000 "x" 100 30).1
      (of_decide_eq_true (by with_unfolding_all rfl))
      (of_decide_eq_true (by with_unfolding_all rfl))
      (of_decide_eq_true (by with_unfolding_all rfl))
    have he : c7Rec.inactivityTimeout = 600 := by with_unfolding_all rfl
    rw [h, he]
  · exact (inactivity_timer_frame c7Rec [] 5000 "x" 100 30).2

/-! ## C9: discard path of finalize -/

/-- C9: whenever the persistence policy decides to discard, `finalize`
succeeds, deletes the temp file (an already-missing temp file is not an
error: no existence hypothesis is needed), and returns metadata with
`saved = false` and an empty `path`. -/
theorem discard_path (r : Recorder) (fs : FS) (now : ℚ) (ec : Option ℤ)
    (sr : Option StopReason) (hNotFin : r.finalized = false)
    (hNoSave : r.shouldSave ec = false) :
    ∃ meta r1, r.finalize fs now ec sr = (Except.ok meta, r1, fsDelete fs r.tempPath) ∧
      meta.saved = false ∧ meta.path = "" := by
  have hNoSave' : ({ r with
      finalized := true
      maxDurationTimer := none
      inactivityTimer := none } : Recorder).shouldSave ec = false := hNoSave
  simp only [Recorder.finalize, hNotFin, Bool.false_eq_true, if_false, hNoSave']
  exact ⟨_, _, rfl, rfl, rfl⟩

/-- A started `on-failure` recorder whose temp file is absent, used to
witness `discard_path`. -/
def c9Rec : Recorder :=
  ((Recorder.make "w9" RecordingMode.onFailure "/out" RecordingFormat.v2 2 3600 600 0).start
    [] 1000 80 24 none).2.1

/-- Witness for `discard_path`: finalizing the concrete `on-failure`
recorder with exit code 0 on a file system that lacks its temp file still
succeeds, with `saved = false` and an empty path. -/
theorem discard_path_witness :
    ∃ meta r1, c9Rec.finalize [] 2000 (some 0) none =
        (Except.ok meta, r1, fsDelete [] c9Rec.tempPath) ∧
      meta.saved = false ∧ meta.path = "" :=
  discard_path c9Rec [] 2000 (some 0) none
    (of_decide_eq_true (by with_unfolding_all rfl))
    (of_decide_eq_true (by with_unfolding_all rfl))

/-! ## C6: end-to-end scenario -/

/-- The C6 recorder: `mode = 'always'`, constructed at t = 1000 ms. -/
def e2eRec0 : Recorder :=
  Recorder.make "r1" RecordingMode.always "/out" RecordingFormat.v2 2 3600 600 1000

/-- C6 step 1: start at 80×24 at t = 1000 ms on an empty file system. -/
def e2eStart := e2eRec0.start [] 1000 80 24 none

/-- C6 step 2: record the output `"hello\n"` at t = 2000 ms. -/
def e2eOut := e2eStart.2.1.recordOutput e2eStart.2.2 2000 "hello\n"

/-- C6 step 3: record a resize to 100×30 at t = 3000 ms. -/
def e2eRes := e2eOut.1.recordResize e2eOut.2 3000 100 30

/-- C6 step 4: finalize with exit code 0 and stop reason `'explicit'` at
t = 4000 ms. -/
def e2eFin := e2eRes.1.finalize e2eRes.2 4000 (some 0) (some StopReason.explicit)

/-- The saved event log's content after the C6 run. -/
def e2eContent : String := (fsRead e2eFin.2.2 e2eRec0.finalPath).getD ""

/-- The metadata returned by the C6 finalize. -/
def e2eMeta : RecordingMetadata :=
  { id := "r1"
    path := "/out/terminal-1000-r1.cast"
    tempPath := "/tmp/terminal-mcp-recording-r1.cast"
    startTime := 1000
    endTime := 4000
    durationMs := 3000
    bytesWritten := 86
    exitCode := some 0
    mode := RecordingMode.always
    saved := true
    stopReason := some StopReason.explicit }

/-- C6: the recording started at 80×24 that records output `"hello\n"`,
then a resize to 100×30, then finalizes with exit code 0 and stop reason
`'explicit'`, produces an event log of exactly 3 newline-terminated lines
(header plus two events) and metadata with `saved = true`,
`stopReason = 'explicit'` and `bytesWritten` equal to the UTF-8 byte length
of everything appended to the log. -/
theorem end_to_end_scenario :
    e2eFin.1 = Except.ok e2eMeta ∧
    e2eContent.splitOn "\n" =
      ["\x7b\"version\":2,\"width\":80,\"height\":24,\"timestamp\":1\x7d",
       "[1,\"o\",\"hello\\n\"]",
       "[2,\"r\",\"100x30\"]",
       ""] ∧
    e2eMeta.saved = true ∧
    e2eMeta.stopReason = some StopReason.explicit ∧
    e2eMeta.bytesWritten = utf8Len e2eContent := by
  refine ⟨?_, ?_, rfl, rfl, ?_⟩
  · set_option maxRecDepth 100000 in with_unfolding_all rfl
  · set_option maxRecDepth 100000 in with_unfolding_all rfl
  · set_option maxRecDepth 100000 in with_unfolding_all rfl

/-! ## C8: finalizeAll -/

/-- The metadata of a successful `finalize` carries the recorder's id, the
supplied exit code, and the supplied (or internally tracked) stop reason. -/
lemma finalize_ok_fields (r : Recorder) (fs : FS) (now : ℚ) (ec : Option ℤ)
    (sr : Option StopReason) (meta : RecordingMetadata) (r1 : Recorder) (fs1 : FS)
    (h : r.finalize fs now ec sr = (Except.ok meta, r1, fs1)) :
    meta.id = r.id ∧ meta.exitCode = ec ∧ meta.stopReason = some (sr.getD r.stopReason) := by
  by_cases hf : r.finalized = true
  · simp [Recorder.finalize, hf] at h
  · simp only [Recorder.finalize, hf, Bool.false_eq_true, if_false] at h
    split at h
    · split at h
      · simp at h
      · simp only [Prod.mk.injEq, Except.ok.injEq] at h
        obtain ⟨h1, -, -⟩ := h
        subst h1
        exact ⟨rfl, rfl, rfl⟩
    · simp only [Prod.mk.injEq, Except.ok.injEq] at h
      obtain ⟨h1, -, -⟩ := h
      subst h1
      exact ⟨rfl, rfl, rfl⟩

/-- When the `finalizeAll` iteration succeeds, every visited entry is
deleted, and the collected metadata corresponds one-to-one (in order) with
the Active entries, each stamped with the supplied exit code and reason. -/
lemma finalizeAllAux_ok (entries : List (String × Recorder)) (fs : FS) (now : ℚ)
    (ec : Option ℤ) (reason : StopReason) (res : List RecordingMetadata)
    (remaining : List (String × Recorder)) (fs2 : FS)
    (h : finalizeAllAux entries fs now ec reason = (Except.ok res, remaining, fs2)) :
    remaining = [] ∧
    res.map (fun meta => meta.id) =
      ((entries.filter (fun p => p.2.isActive)).map (fun p => p.2.id)) ∧
    ∀ meta ∈ res, meta.exitCode = ec ∧ meta.stopReason = some reason := by
  induction entries generalizing fs res remaining fs2 with
  | nil =>
    simp only [finalizeAllAux, Prod.mk.injEq, Except.ok.injEq] at h
    obtain ⟨h1, h2, -⟩ := h
    subst h1 h2
    simp
  | cons p rest ih =>
    obtain ⟨id, r⟩ := p
    simp only [finalizeAllAux] at h
    split at h
    · rename_i hAct
      split at h
      · simp at h
      · rename_i meta hOk
        split at h
        · simp at h
        · rename_i metas hOkRest
          simp only [Prod.mk.injEq, Except.ok.injEq] at h
          obtain ⟨hres, hrem, hfs⟩ := h
          subst hres hrem hfs
          have hfin : r.finalize fs now ec (some reason) =
              (Except.ok meta,
               (r.finalize fs now ec (some reason)).2.1,
               (r.finalize fs now ec (some reason)).2.2) := by
            rw [← hOk]
          have hfields := finalize_ok_fields r fs now ec (some reason) meta _ _ hfin
          have haux :
              finalizeAllAux rest (r.finalize fs now ec (some reason)).2.2 now ec reason =
              (Except.ok metas,
               (finalizeAllAux rest (r.finalize fs now ec (some reason)).2.2 now ec reason).2.1,
               (finalizeAllAux rest (r.finalize fs now ec (some reason)).2.2 now ec reason).2.2) := by
            rw [← hOkRest]
          obtain ⟨ih1, ih2, ih3⟩ := ih _ _ _ _ haux
          refine ⟨ih1, ?_, ?_⟩
          · simp only [List.map_cons, List.filter_cons, hAct, if_true, ih2,
              hfields.1, Option.getD_some]
          · intro m hm
            rcases List.mem_cons.mp hm with hm1 | hm2
            · subst hm1
              exact ⟨hfields.2.1, by simpa using hfields.2.2⟩
            · exact ih3 m hm2
    · rename_i hAct
      obtain ⟨ih1, ih2, ih3⟩ := ih _ _ _ _ h
      refine ⟨ih1, ?_, ih3⟩
      simp only [List.filter_cons] at *
      rw [if_neg hAct]
      exact ih2

/-- C8: a successful `finalizeAll(exitCode, stopReason)` leaves the
registry empty, returns exactly one metadata value per previously Active
Recording (in registration order, identified by the recorder's id; entries
that were Pending or already Finalized are skipped), each carrying the
given exit code and stop reason; the reason defaults to `'session_exit'`. -/
theorem finalizeAll_spec (m : RecordingManager) (fs : FS) (now : ℚ) (ec : Option ℤ)
    (reason : StopReason) (res : List RecordingMetadata) (m' : RecordingManager) (fs' : FS)
    (h : m.finalizeAll fs now ec reason = (Except.ok res, m', fs')) :
    m'.recordings = [] ∧
    res.map (fun meta => meta.id) =
      ((m.recordings.filter (fun p => p.2.isActive)).map (fun p => p.2.id)) ∧
    (∀ meta ∈ res, meta.exitCode = ec ∧ meta.stopReason = some reason) ∧
    m.finalizeAllDefault fs now ec = m.finalizeAll fs now ec StopReason.session_exit := by
  simp only [RecordingManager.finalizeAll, Prod.mk.injEq] at h
  obtain ⟨h1, h2, h3⟩ := h
  have haux : finalizeAllAux m.recordings fs now ec reason =
      (Except.ok res,
       (finalizeAllAux m.recordings fs now ec reason).2.1,
       (finalizeAllAux m.recordings fs now ec reason).2.2) := by
    rw [← h1]
  obtain ⟨a1, a2, a3⟩ := finalizeAllAux_ok _ _ _ _ _ _ _ _ haux
  refine ⟨?_, a2, a3, rfl⟩
  rw [← h2]
  exact a1

/-- C8 witness scenario, recorder "a": started, stays active. -/
def c8Start1 :=
  (Recorder.make "a" RecordingMode.always "/out" RecordingFormat.v2 2 3600 600 0).start
    [] 1000 80 24 none

/-- C8 witness scenario, recorder "b": started on the same file system. -/
def c8Start2 :=
  (Recorder.make "b" RecordingMode.onFailure "/o2" RecordingFormat.v2 2 3600 600 0).start
    c8Start1.2.2 1000 80 24 none

/-- C8 witness scenario: recorder "b" is finalized (discarded) first. -/
def c8FinB := c8Start2.2.1.finalize c8Start2.2.2 1500 (some 0) none

/-- A registry holding active "a" and already-finalized "b". -/
def c8M : RecordingManager :=
  { recordings := [("a", c8Start1.2.1), ("b", c8FinB.2.1)]
    defaultOptions := (RecordingManager.make none).defaultOptions }

/-- Running `finalizeAll(0, 'session_exit')` on the witness registry. -/
def c8Run := c8M.finalizeAll c8FinB.2.2 2000 (some 0) StopReason.session_exit

/-- The metadata list collected by the C8 witness run: exactly one entry,
for the Active recorder "a". -/
def c8Res : List RecordingMetadata :=
  [{ id := "a"
     path := "/out/terminal-0-a.cast"
     tempPath := "/tmp/terminal-mcp-recording-a.cast"
     startTime := 1000
     endTime := 2000
     durationMs := 1000
     bytesWritten := 51
     exitCode := some 0
     mode := RecordingMode.always
     saved := true
     stopReason := some StopReason.session_exit }]

/-- Witness for `finalizeAll_spec` on a registry with one Active and one
already-finalized Recording. -/
theorem finalizeAll_spec_witness :
    c8Run.2.1.recordings = [] ∧
    c8Res.map (fun meta => meta.id) =
      ((c8M.recordings.filter (fun p => p.2.isActive)).map (fun p => p.2.id)) ∧
    (∀ meta ∈ c8Res, meta.exitCode = some 0 ∧
      meta.stopReason = some StopReason.session_exit) ∧
    c8M.finalizeAllDefault c8FinB.2.2 2000 (some 0) =
      c8M.finalizeAll c8FinB.2.2 2000 (some 0) StopReason.session_exit :=
  finalizeAll_spec c8M c8FinB.2.2 2000 (some 0) StopReason.session_exit c8Res
    c8Run.2.1 c8Run.2.2 (by with_unfolding_all rfl)

/-! ## C5: fan-out isolation -/

/-- `find?` by key is unaffected by filtering away a different key. -/
lemma find?_filter_ne (fs : FS) (p q : String) (h : q ≠ p) :
    (fs.filter (fun e => e.1 != p)).find? (fun e => e.1 == q) =
      fs.find? (fun e => e.1 == q) := by
  induction fs with
  | nil => rfl
  | cons e fs ih =>
    by_cases he : e.1 = p
    · have h1 : (e.1 != p) = false := by simp [he]
      have h2 : (e.1 == q) = false := by
        simp only [beq_eq_false_iff_ne, ne_eq, he]
        exact fun hq => h hq.symm
      simp only [List.filter_cons, h1, Bool.false_eq_true, if_false,
        List.find?_cons, h2]
      exact ih
    · have h1 : (e.1 != p) = true := by simp [he]
      simp only [List.filter_cons, h1, if_true, List.find?_cons]
      cases hq : (e.1 == q) with
      | true => rfl
      | false => exact ih

/-- Reading back the path just written. -/
lemma fsRead_fsWrite_self (fs : FS) (p c : String) :
    fsRead (fsWrite fs p c) p = some c := by
  simp [fsRead, fsWrite]

/-- Writing one path leaves every other path's content unchanged. -/
lemma fsRead_fsWrite_ne (fs : FS) (p c q : String) (h : q ≠ p) :
    fsRead (fsWrite fs p c) q = fsRead fs q := by
  unfold fsRead fsWrite
  rw [List.find?_cons_of_neg _ (by simp; exact fun hq => h hq.symm)]
  rw [find?_filter_ne fs p q h]

/-- Appending to one path leaves every other path's content unchanged. -/
lemma fsRead_fsAppend_ne (fs : FS) (p d q : String) (h : q ≠ p) :
    fsRead (fsAppend fs p d) q = fsRead fs q := by
  unfold fsAppend
  cases fsRead fs p with
  | none => rfl
  | some c => exact fsRead_fsWrite_ne _ _ _ _ h

/-- Appending to a present path appends to its content. -/
lemma fsRead_fsAppend_self (fs : FS) (p d : String) :
    fsRead (fsAppend fs p d) p = (fsRead fs p).map (fun c => c ++ d) := by
  unfold fsAppend
  cases hc : fsRead fs p with
  | none => simp [hc]
  | some c => simp [fsRead_fsWrite_self]

/-- `writeLine` touches no path other than the recorder's temp file. -/
lemma writeLine_fs_frame (r : Recorder) (fs : FS) (line q : String)
    (h : q ≠ r.tempPath) :
    fsRead ((r.writeLine fs line).2) q = fsRead fs q := by
  unfold Recorder.writeLine
  cases r.writeStream with
  | none => rfl
  | some ws =>
    by_cases hb : ws.broken = true <;>
      simp [hb, fsRead_fsAppend_ne _ _ _ _ h]

/-- `writeLine` through a healthy stream appends `line + '\n'` to the temp
file. -/
lemma writeLine_fs_self (r : Recorder) (fs : FS) (line : String)
    (hws : r.writeStream = some { broken := false }) :
    (r.writeLine fs line).2 = fsAppend fs r.tempPath (line ++ "\n") := by
  unfold Recorder.writeLine
  rw [hws]
  rfl

/-- The recorder state produced by `writeLine` does not depend on the file
system. -/
lemma writeLine_state_fs_indep (r : Recorder) (fs fs' : FS) (line : String) :
    (r.writeLine fs line).1 = (r.writeLine fs' line).1 := by
  unfold Recorder.writeLine
  cases r.writeStream <;> rfl

/-- `getElapsedSeconds` preserves the temp path. -/
lemma getElapsedSeconds_tempPath (r : Recorder) (now : ℚ) :
    ((r.getElapsedSeconds now).2).tempPath = r.tempPath := by
  unfold Recorder.getElapsedSeconds
  split <;> rfl

/-- `getElapsedSeconds` preserves the write stream. -/
lemma getElapsedSeconds_writeStream (r : Recorder) (now : ℚ) :
    ((r.getElapsedSeconds now).2).writeStream = r.writeStream := by
  unfold Recorder.getElapsedSeconds
  split <;> rfl

/-- The inactivity-timer update inside `recordOutput` changes neither the
logical timestamp nor any field read by the write path. -/
lemma getElapsedSeconds_timer_fst (r : Recorder) (x : Option ℚ) (now : ℚ) :
    (({ r with inactivityTimer := x } : Recorder).getElapsedSeconds now).1 =
      (r.getElapsedSeconds now).1 := by
  unfold Recorder.getElapsedSeconds
  split_ifs <;> rfl

/-- `recordOutput` touches no path other than the recorder's temp file. -/
lemma recordOutput_fs_frame (r : Recorder) (fs : FS) (now : ℚ) (data q : String)
    (h : q ≠ r.tempPath) :
    fsRead ((r.recordOutput fs now data).2) q = fsRead fs q := by
  unfold Recorder.recordOutput
  split
  · rfl
  · apply writeLine_fs_frame
    rw [getElapsedSeconds_tempPath]
    split <;> exact h

/-- C5 core, output event on one recorder: through a healthy stream on an
Active recorder, `recordOutput` appends exactly its serialized event line
to the recorder's own temp file. -/
def outputLineOf (r : Recorder) (now : ℚ) (data : String) : String :=
  serializeEvent (r.getElapsedSeconds now).1 "o" data ++ "\n"

/-- `recordOutput` on an Active recorder with a healthy stream appends its
event line to the recorder's temp file. -/
lemma recordOutput_fs_self (r : Recorder) (fs : FS) (now : ℚ) (data : String)
    (hAct : r.isActive = true) (hws : r.writeStream = some { broken := false }) :
    fsRead ((r.recordOutput fs now data).2) r.tempPath
      = (fsRead fs r.tempPath).map (fun c => c ++ outputLineOf r now data) := by
  obtain ⟨hsome, hfin⟩ : r.writeStream.isSome = true ∧ r.finalized = false := by
    simpa [Recorder.isActive] using hAct
  have hguard : (r.writeStream.isNone || r.finalized) = false := by
    rw [hws, hfin]
    rfl
  unfold Recorder.recordOutput
  rw [hguard]
  simp only [Bool.false_eq_true, if_false]
  split
  · rw [writeLine_fs_self _ _ _ (by rw [getElapsedSeconds_writeStream]; exact hws)]
    rw [getElapsedSeconds_tempPath]
    rw [fsRead_fsAppend_self]
    simp only [outputLineOf, getElapsedSeconds_timer_fst]
  · rw [writeLine_fs_self _ _ _ (by rw [getElapsedSeconds_writeStream]; exact hws)]
    rw [getElapsedSeconds_tempPath]
    rw [fsRead_fsAppend_self]
    simp only [outputLineOf]

/-- The recorder state produced by `recordOutput` does not depend on the
file system it writes into. -/
lemma recordOutput_state_fs_indep (r : Recorder) (fs fs' : FS) (now : ℚ) (data : String) :
    (r.recordOutput fs now data).1 = (r.recordOutput fs' now data).1 := by
  unfold Recorder.recordOutput
  split
  · rfl
  · exact writeLine_state_fs_indep _ _ _ _

/-- Fan-out over recorders whose temp paths all differ from `P` leaves the
content at `P` unchanged. -/
lemma recordOutputToAllAux_frame (entries : List (String × Recorder)) (fs : FS)
    (now : ℚ) (data : String) (P : String)
    (h : ∀ p ∈ entries, p.2.tempPath ≠ P) :
    fsRead ((recordOutputToAllAux entries fs now data).2) P = fsRead fs P := by
  induction entries generalizing fs with
  | nil => rfl
  | cons e rest ih =>
    obtain ⟨id, r⟩ := e
    have hr : r.tempPath ≠ P := h (id, r) (by simp)
    simp only [recordOutputToAllAux]
    rw [ih _ (fun p hp => h p (by simp [hp]))]
    split
    · exact recordOutput_fs_frame _ _ _ _ _ (fun hq => hr hq.symm)
    · rfl

/-- Fan-out updates each registered recorder's state independently of the
file system and of every other recorder. -/
lemma recordOutputToAllAux_states (entries : List (String × Recorder)) (fs : FS)
    (now : ℚ) (data : String) :
    (recordOutputToAllAux entries fs now data).1 =
      entries.map (fun p =>
        (p.1, if p.2.isActive then (p.2.recordOutput [] now data).1 else p.2)) := by
  induction entries generalizing fs with
  | nil => rfl
  | cons e rest ih =>
    obtain ⟨id, r⟩ := e
    simp only [recordOutputToAllAux, List.map_cons, List.cons.injEq]
    constructor
    · split
      · rw [recordOutput_state_fs_indep r fs [] now data]
      · rfl
    · exact ih _

/-- The serialized resize event line a recorder would append. -/
def resizeLineOf (r : Recorder) (now : ℚ) (cols rows : ℕ) : String :=
  serializeEvent (r.getElapsedSeconds now).1 "r"
    (toString cols ++ "x" ++ toString rows) ++ "\n"

/-- `recordResize` touches no path other than the recorder's temp file. -/
lemma recordResize_fs_frame (r : Recorder) (fs : FS) (now : ℚ) (cols rows : ℕ)
    (q : String) (h : q ≠ r.tempPath) :
    fsRead ((r.recordResize fs now cols rows).2) q = fsRead fs q := by
  unfold Recorder.recordResize
  split
  · rfl
  · apply writeLine_fs_frame
    rw [getElapsedSeconds_tempPath]
    exact h

/-- `recordResize` on an Active recorder with a healthy stream appends its
resize event line to the recorder's temp file. -/
lemma recordResize_fs_self (r : Recorder) (fs : FS) (now : ℚ) (cols rows : ℕ)
    (hAct : r.isActive = true) (hws : r.writeStream = some { broken := false }) :
    fsRead ((r.recordResize fs now cols rows).2) r.tempPath
      = (fsRead fs r.tempPath).map (fun c => c ++ resizeLineOf r now cols rows) := by
  obtain ⟨hsome, hfin⟩ : r.writeStream.isSome = true ∧ r.finalized = false := by
    simpa [Recorder.isActive] using hAct
  have hguard : (r.writeStream.isNone || r.finalized) = false := by
    rw [hws, hfin]
    rfl
  unfold Recorder.recordResize
  rw [hguard]
  simp only [Bool.false_eq_true, if_false]
  rw [writeLine_fs_self _ _ _ (by rw [getElapsedSeconds_writeStream]; exact hws)]
  rw [getElapsedSeconds_tempPath]
  rw [fsRead_fsAppend_self]
  simp only [resizeLineOf]

/-- The recorder state produced by `recordResize` does not depend on the
file system it writes into. -/
lemma recordResize_state_fs_indep (r : Recorder) (fs fs' : FS) (now : ℚ)
    (cols rows : ℕ) :
    (r.recordResize fs now cols rows).1 = (r.recordResize fs' now cols rows).1 := by
  unfold Recorder.recordResize
  split
  · rfl
  · exact writeLine_state_fs_indep _ _ _ _

/-- Resize fan-out over recorders whose temp paths all differ from `P`
leaves the content at `P` unchanged. -/
lemma recordResizeToAllAux_frame (entries : List (String × Recorder)) (fs : FS)
    (now : ℚ) (cols rows : ℕ) (P : String)
    (h : ∀ p ∈ entries, p.2.tempPath ≠ P) :
    fsRead ((recordResizeToAllAux entries fs now cols rows).2) P = fsRead fs P := by
  induction entries generalizing fs with
  | nil => rfl
  | cons e rest ih =>
    obtain ⟨id, r⟩ := e
    have hr : r.tempPath ≠ P := h (id, r) (by simp)
    simp only [recordResizeToAllAux]
    rw [ih _ (fun p hp => h p (by simp [hp]))]
    split
    · exact recordResize_fs_frame _ _ _ _ _ _ (fun hq => hr hq.symm)
    · rfl

/-- Resize fan-out updates each registered recorder's state independently
of the file system and of every other recorder. -/
lemma recordResizeToAllAux_states (entries : List (String × Recorder)) (fs : FS)
    (now : ℚ) (cols rows : ℕ) :
    (recordResizeToAllAux entries fs now cols rows).1 =
      entries.map (fun p =>
        (p.1, if p.2.isActive then (p.2.recordResize [] now cols rows).1 else p.2)) := by
  induction entries generalizing fs with
  | nil => rfl
  | cons e rest ih =>
    obtain ⟨id, r⟩ := e
    simp only [recordResizeToAllAux, List.map_cons, List.cons.injEq]
    constructor
    · split
      · rw [recordResize_state_fs_indep r fs [] now cols rows]
      · rfl
    · exact ih _

/-- C5: when the Registry fans an output or resize event out, a failing
(broken) write stream in any other Recording does not prevent an Active,
healthy Recording from receiving and recording the event: its temp file
gains exactly its own serialized event line, and every registered
recorder's resulting state is what `recordOutput` (resp. `recordResize`)
yields on it alone, independent of the others. No hypothesis constrains
the other recorders' streams. -/
theorem fanout_isolation (l₁ l₂ : List (String × Recorder)) (id : String)
    (r : Recorder) (fs : FS) (now : ℚ) (data : String) (cols rows : ℕ)
    (hAct : r.isActive = true) (hws : r.writeStream = some { broken := false })
    (hOthers : ∀ p ∈ l₁ ++ l₂, p.2.tempPath ≠ r.tempPath) :
    fsRead ((recordOutputToAllAux (l₁ ++ (id, r) :: l₂) fs now data).2) r.tempPath
      = (fsRead fs r.tempPath).map (fun c => c ++ outputLineOf r now data) ∧
    (recordOutputToAllAux (l₁ ++ (id, r) :: l₂) fs now data).1 =
      (l₁ ++ (id, r) :: l₂).map (fun p =>
        (p.1, if p.2.isActive then (p.2.recordOutput [] now data).1 else p.2)) ∧
    fsRead ((recordResizeToAllAux (l₁ ++ (id, r) :: l₂) fs now cols rows).2) r.tempPath
      = (fsRead fs r.tempPath).map (fun c => c ++ resizeLineOf r now cols rows) ∧
    (recordResizeToAllAux (l₁ ++ (id, r) :: l₂) fs now cols rows).1 =
      (l₁ ++ (id, r) :: l₂).map (fun p =>
        (p.1, if p.2.isActive then (p.2.recordResize [] now cols rows).1 else p.2)) := by
  refine ⟨?_, recordOutputToAllAux_states _ _ _ _, ?_,
    recordResizeToAllAux_states _ _ _ _ _⟩
  · induction l₁ generalizing fs with
    | nil =>
      simp only [List.nil_append, recordOutputToAllAux, hAct, if_true]
      rw [recordOutputToAllAux_frame _ _ _ _ _
        (fun p hp => hOthers p (by simpa using hp))]
      exact recordOutput_fs_self r fs now data hAct hws
    | cons e rest ih =>
      obtain ⟨eid, er⟩ := e
      have her : er.tempPath ≠ r.tempPath := hOthers (eid, er) (by simp)
      simp only [List.cons_append, recordOutputToAllAux, List.append_eq]
      rw [ih _ (fun p hp => hOthers p (by simp at hp ⊢; tauto))]
      have hfsstep :
          fsRead (if er.isActive then er.recordOutput fs now data else (er, fs)).2 r.tempPath
            = fsRead fs r.tempPath := by
        split
        · exact recordOutput_fs_frame _ _ _ _ _ (fun hq => her hq.symm)
        · rfl
      rw [hfsstep]
  · induction l₁ generalizing fs with
    | nil =>
      simp only [List.nil_append, recordResizeToAllAux, hAct, if_true]
      rw [recordResizeToAllAux_frame _ _ _ _ _ _
        (fun p hp => hOthers p (by simpa using hp))]
      exact recordResize_fs_self r fs now cols rows hAct hws
    | cons e rest ih =>
      obtain ⟨eid, er⟩ := e
      have her : er.tempPath ≠ r.tempPath := hOthers (eid, er) (by simp)
      simp only [List.cons_append, recordResizeToAllAux, List.append_eq]
      rw [ih _ (fun p hp => hOthers p (by simp at hp ⊢; tauto))]
      have hfsstep :
          fsRead (if er.isActive then er.recordResize fs now cols rows else (er, fs)).2
              r.tempPath
            = fsRead fs r.tempPath := by
        split
        · exact recordResize_fs_frame _ _ _ _ _ _ (fun hq => her hq.symm)
        · rfl
      rw [hfsstep]

/-- C5 witness, recorder "a": started, then its write stream fails. -/
def c5StartA :=
  (Recorder.make "a" RecordingMode.always "/out" RecordingFormat.v2 2 3600 600 0).start
    [] 1000 80 24 none

/-- Recorder "a" with its stream broken (injected write failure). -/
def c5Broken : Recorder := { c5StartA.2.1 with writeStream := some { broken := true } }

/-- C5 witness, recorder "b": started healthy on the same file system. -/
def c5StartB :=
  (Recorder.make "b" RecordingMode.always "/out" RecordingFormat.v2 0 3600 600 0).start
    c5StartA.2.2 1000 80 24 none

/-- Witness for `fanout_isolation`: with broken "a" first in the registry,
healthy "b" still gets the output event — and likewise a resize event —
appended to its own temp file, and both recorders' states advance
independently on each fan-out path. -/
theorem fanout_isolation_witness :
    fsRead ((recordOutputToAllAux ([("a", c5Broken)] ++ ("b", c5StartB.2.1) :: [])
        c5StartB.2.2 2000 "x").2) c5StartB.2.1.tempPath
      = (fsRead c5StartB.2.2 c5StartB.2.1.tempPath).map
          (fun c => c ++ outputLineOf c5StartB.2.1 2000 "x") ∧
    (recordOutputToAllAux ([("a", c5Broken)] ++ ("b", c5StartB.2.1) :: [])
        c5StartB.2.2 2000 "x").1 =
      ([("a", c5Broken)] ++ ("b", c5StartB.2.1) :: []).map (fun p =>
        (p.1, if p.2.isActive then (p.2.recordOutput [] 2000 "x").1 else p.2)) ∧
    fsRead ((recordResizeToAllAux ([("a", c5Broken)] ++ ("b", c5StartB.2.1) :: [])
        c5StartB.2.2 2000 100 30).2) c5StartB.2.1.tempPath
      = (fsRead c5StartB.2.2 c5StartB.2.1.tempPath).map
          (fun c => c ++ resizeLineOf c5StartB.2.1 2000 100 30) ∧
    (recordResizeToAllAux ([("a", c5Broken)] ++ ("b", c5StartB.2.1) :: [])
        c5StartB.2.2 2000 100 30).1 =
      ([("a", c5Broken)] ++ ("b", c5StartB.2.1) :: []).map (fun p =>
        (p.1, if p.2.isActive then (p.2.recordResize [] 2000 100 30).1 else p.2)) :=
  fanout_isolation [("a", c5Broken)] [] "b" c5StartB.2.1 c5StartB.2.2 2000 "x" 100 30
    (of_decide_eq_true (by with_unfolding_all rfl))
    (by with_unfolding_all rfl)
    (of_decide_eq_true (by with_unfolding_all rfl))

/-! ## C2: elapsed-time normalization -/

/-- The sequence of logical timestamps `getElapsedSeconds` assigns to a
sequence of event times (ms), threading the recorder state. -/
def recordStamps (r : Recorder) : List ℚ → List ℚ
  | [] => []
  | t :: ts =>
    ((r.getElapsedSeconds t).1) :: recordStamps ((r.getElapsedSeconds t).2) ts

/-- Consecutive-pair check over `(eventTimeMs, logicalStamp)` pairs: each
stamp is ≥ its predecessor and grows by at most
`max idleTimeLimit trueIdleSeconds`. -/
def stampsChk (L : ℚ) : List (ℚ × ℚ) → Bool
  | [] => true
  | [_] => true
  | (t1, s1) :: (t2, s2) :: rest =>
    decide (s1 ≤ s2) && decide (s2 - s1 ≤ max L ((t2 - t1) / 1000)) &&
      stampsChk L ((t2, s2) :: rest)

/-- `getElapsedSeconds` records the event's time as the new
`lastEventTime`. -/
lemma getElapsedSeconds_snd_lastEventTime (r : Recorder) (t : ℚ) :
    ((r.getElapsedSeconds t).2).lastEventTime = t := by
  unfold Recorder.getElapsedSeconds
  split <;> rfl

/-- `getElapsedSeconds` stores the stamp it returns. -/
lemma getElapsedSeconds_snd_adjusted (r : Recorder) (t : ℚ) :
    ((r.getElapsedSeconds t).2).adjustedElapsed = (r.getElapsedSeconds t).1 := by
  unfold Recorder.getElapsedSeconds
  split <;> rfl

/-- `getElapsedSeconds` preserves the idle-time limit. -/
lemma getElapsedSeconds_snd_idleLimit (r : Recorder) (t : ℚ) :
    ((r.getElapsedSeconds t).2).idleTimeLimit = r.idleTimeLimit := by
  unfold Recorder.getElapsedSeconds
  split <;> rfl

/-- `getElapsedSeconds` preserves the start time. -/
lemma getElapsedSeconds_snd_startTime (r : Recorder) (t : ℚ) :
    ((r.getElapsedSeconds t).2).startTime = r.startTime := by
  unfold Recorder.getElapsedSeconds
  split <;> rfl

/-- The non-first-event stamp: previous stamp plus the (possibly capped)
idle time. -/
lemma getElapsedSeconds_fst_step (r : Recorder) (t : ℚ)
    (hne : ¬ r.lastEventTime = 0) :
    (r.getElapsedSeconds t).1 =
      if r.idleTimeLimit > 0 ∧ (t - r.lastEventTime) / 1000 > r.idleTimeLimit
      then r.adjustedElapsed + r.idleTimeLimit
      else r.adjustedElapsed + (t - r.lastEventTime) / 1000 := by
  unfold Recorder.getElapsedSeconds
  rw [if_neg hne]

/-- Invariant step for the consecutive-pair check: once some event has
happened at a positive time, all later stamps are monotone and capped. -/
lemma stampsChk_aux (L : ℚ) (r : Recorder) (ts : List ℚ) (tPrev sPrev : ℚ)
    (hL : r.idleTimeLimit = L) (htPrev : r.lastEventTime = tPrev)
    (hsPrev : r.adjustedElapsed = sPrev) (hlast : 0 < tPrev)
    (hchain : List.Chain' (· ≤ ·) (tPrev :: ts)) :
    stampsChk L ((tPrev, sPrev) :: ts.zip (recordStamps r ts)) = true := by
  induction ts generalizing r tPrev sPrev with
  | nil => rfl
  | cons t ts ih =>
    rw [List.chain'_cons] at hchain
    obtain ⟨hle, hchain'⟩ := hchain
    have hne : ¬ r.lastEventTime = 0 := by
      rw [htPrev]
      exact ne_of_gt hlast
    have hstep := getElapsedSeconds_fst_step r t hne
    rw [hL, htPrev, hsPrev] at hstep
    have hidle : 0 ≤ (t - tPrev) / 1000 := by
      apply div_nonneg (by linarith) (by norm_num)
    simp only [recordStamps, List.zip_cons_cons, stampsChk, Bool.and_eq_true,
      decide_eq_true_eq]
    refine ⟨⟨?_, ?_⟩, ?_⟩
    · rw [hstep]
      split_ifs with hcap
      · have := hcap.1
        linarith
      · linarith
    · rw [hstep]
      split_ifs with hcap
      · have h1 : sPrev + L - sPrev = L := by ring
        rw [h1]
        exact le_max_left _ _
      · have h1 : sPrev + (t - tPrev) / 1000 - sPrev = (t - tPrev) / 1000 := by ring
        rw [h1]
        exact le_max_right _ _
    · exact ih ((r.getElapsedSeconds t).2) t ((r.getElapsedSeconds t).1)
        ((getElapsedSeconds_snd_idleLimit r t).trans hL)
        (getElapsedSeconds_snd_lastEventTime r t)
        (getElapsedSeconds_snd_adjusted r t)
        (lt_of_lt_of_le hlast hle) hchain'

/-- With `idleTimeLimit = 0` the capping branch is dead and the logical
clock telescopes to true elapsed wall time. -/
lemma stamps_exact (r : Recorder) (ts : List ℚ) (hL : r.idleTimeLimit = 0)
    (hinv : r.lastEventTime = 0 ∨
      r.adjustedElapsed = (r.lastEventTime - r.startTime) / 1000) :
    recordStamps r ts = ts.map (fun t => (t - r.startTime) / 1000) := by
  induction ts generalizing r with
  | nil => rfl
  | cons t ts ih =>
    have hfst : (r.getElapsedSeconds t).1 = (t - r.startTime) / 1000 := by
      by_cases h0 : r.lastEventTime = 0
      · unfold Recorder.getElapsedSeconds
        rw [if_pos h0]
      · rcases hinv with h0' | hadj
        · exact absurd h0' h0
        · rw [getElapsedSeconds_fst_step r t h0, hL]
          rw [if_neg (by simp)]
          rw [hadj, div_add_div_same]
          ring_nf
    simp only [recordStamps, List.map_cons, hfst]
    have hrec := ih ((r.getElapsedSeconds t).2)
      ((getElapsedSeconds_snd_idleLimit r t).trans hL)
      (Or.inr (by
        rw [getElapsedSeconds_snd_adjusted, getElapsedSeconds_snd_lastEventTime,
          getElapsedSeconds_snd_startTime, hfst]))
    rw [hrec, getElapsedSeconds_snd_startTime]

/-- C2: for a freshly started Recording with `idleTimeLimit = L` receiving
events at nondecreasing positive wall-clock times, consecutive logical
timestamps are nondecreasing and grow by at most `max L trueIdleSeconds`;
with `L = 0` every logical timestamp equals the true elapsed wall time
since `startTime`, exactly. -/
theorem elapsed_normalization (r : Recorder) (L start : ℚ) (times : List ℚ)
    (hL : r.idleTimeLimit = L) (hstart : r.startTime = start)
    (hlast : r.lastEventTime = 0) (_hadj : r.adjustedElapsed = 0)
    (hpos : 0 < start) (hchain : List.Chain' (· ≤ ·) (start :: times)) :
    stampsChk L (times.zip (recordStamps r times)) = true ∧
    (L = 0 → recordStamps r times = times.map (fun t => (t - start) / 1000)) := by
  constructor
  · cases times with
    | nil => rfl
    | cons t ts =>
      rw [List.chain'_cons] at hchain
      obtain ⟨hle, hchain'⟩ := hchain
      simp only [recordStamps, List.zip_cons_cons]
      exact stampsChk_aux L ((r.getElapsedSeconds t).2) ts t
        ((r.getElapsedSeconds t).1)
        ((getElapsedSeconds_snd_idleLimit r t).trans hL)
        (getElapsedSeconds_snd_lastEventTime r t)
        (getElapsedSeconds_snd_adjusted r t)
        (lt_of_lt_of_le hpos hle) hchain'
  · intro hL0
    rw [← hstart]
    exact stamps_exact r times (hL.trans hL0) (Or.inl hlast)

/-- A freshly started recorder with `idleTimeLimit = 2`, started at
t = 1000 ms, used to witness `elapsed_normalization`. -/
def c2Rec : Recorder :=
  { id := "w2"
    mode := RecordingMode.always
    format := RecordingFormat.v2
    outputDir := "/out"
    tempPath := "/tmp/terminal-mcp-recording-w2.cast"
    finalPath := "/out/terminal-1000-w2.cast"
    writeStream := some { broken := false }
    startTime := 1000
    bytesWritten := 51
    finalized := false
    idleTimeLimit := 2
    lastEventTime := 0
    adjustedElapsed := 0
    maxDuration := 3600
    inactivityTimeout := 600
    maxDurationTimer := some (1000 + 3600 * 1000)
    inactivityTimer := some (1000 + 600 * 1000)
    stopReason := StopReason.explicit }

/-- Witness for `elapsed_normalization`: events at 1500, 8000 (a 6.5 s gap,
capped at 2 s) and 8100 ms satisfy the consecutive-stamp check. -/
theorem elapsed_normalization_witness :
    stampsChk 2 ([1500, 8000, 8100].zip (recordStamps c2Rec [1500, 8000, 8100])) = true ∧
    ((2:ℚ) = 0 → recordStamps c2Rec [1500, 8000, 8100] =
      [1500, 8000, 8100].map (fun t => (t - 1000) / 1000)) :=
  elapsed_normalization c2Rec 2 1000 [1500, 8000, 8100] rfl rfl rfl rfl
    (by norm_num)
    (by
      simp only [List.chain'_cons, List.chain'_singleton, and_true]
      norm_num)

/-! ## C10: auto-finalize and the registry map -/

/-- `finalize` on an already-finalized recorder rejects without mutating
anything. -/
lemma finalize_finalized (r : Recorder) (fs : FS) (now : ℚ) (ec : Option ℤ)
    (sr : Option StopReason) (h : r.finalized = true) :
    r.finalize fs now ec sr = (Except.error "Recording already finalized", r, fs) := by
  simp [Recorder.finalize, h]

/-- Replacing the recorder stored under one key preserves which keys are
present. -/
lemma find?_map_replace_isSome (l : List (String × Recorder)) (id id' : String)
    (x : Recorder) :
    ((l.map (fun e => if e.1 == id then (e.1, x) else e)).find?
        (fun e => e.1 == id')).isSome =
      (l.find? (fun e => e.1 == id')).isSome := by
  induction l with
  | nil => rfl
  | cons e l ih =>
    simp only [List.map_cons, List.find?_cons]
    by_cases hid : (e.1 == id) = true
    · rw [if_pos hid]
      cases hq : (e.1 == id') with
      | true =>
        simp only [hq, Option.isSome_some]
      | false =>
        simp only [hq]
        exact ih
    · rw [if_neg hid]
      cases hq : (e.1 == id') with
      | true =>
        simp only [hq, Option.isSome_some]
      | false =>
        simp only [hq]
        exact ih

/-- A timer callback never changes which ids the registry holds. -/
lemma timerFire_hasRecording (m : RecordingManager) (fs : FS) (now : ℚ)
    (id : String) (reason : StopReason) (id' : String) :
    ((m.timerFire fs now id reason).1).hasRecording id' = m.hasRecording id' := by
  unfold RecordingManager.timerFire
  cases hm : m.getRecording id with
  | none => rfl
  | some r =>
    simp only [RecordingManager.hasRecording]
    exact find?_map_replace_isSome _ _ _ _

/-- `finalizeRecording` on an id whose recorder is already finalized
propagates the rejection before the delete line runs: registry and file
system are unchanged. -/
lemma finalizeRecording_finalized (m : RecordingManager) (fs : FS) (now : ℚ)
    (id : String) (ec : Option ℤ) (sr : Option StopReason) (r : Recorder)
    (hm : m.getRecording id = some r) (hfin : r.finalized = true) :
    m.finalizeRecording fs now id ec sr =
      (Except.error "Recording already finalized", m, fs) := by
  unfold RecordingManager.finalizeRecording
  rw [hm]
  simp only [finalize_finalized r fs now ec sr hfin]

/-- `finalizeAll` over a registry with no Active recorder collects nothing,
invokes no `finalize`, and still clears the registry. -/
lemma finalizeAllAux_inactive (entries : List (String × Recorder)) (fs : FS)
    (now : ℚ) (ec : Option ℤ) (reason : StopReason)
    (h : ∀ p ∈ entries, p.2.isActive = false) :
    finalizeAllAux entries fs now ec reason = (Except.ok [], [], fs) := by
  induction entries with
  | nil => rfl
  | cons e rest ih =>
    obtain ⟨id, r⟩ := e
    have hr : r.isActive = false := h (id, r) (by simp)
    simp only [finalizeAllAux, hr, Bool.false_eq_true, if_false]
    exact ih (fun p hp => h p (by simp [hp]))

/-- C10 counterexample scenario: start recorder "a" in a registry, then let
its inactivity timer fire at t = 601000 ms. -/
def c10Start :=
  (Recorder.make "a" RecordingMode.always "/out" RecordingFormat.v2 2 3600 600 0).start
    [] 1000 80 24 none

/-- The registry holding the started recorder "a". -/
def c10M0 : RecordingManager :=
  { recordings := [("a", c10Start.2.1)]
    defaultOptions := (RecordingManager.make none).defaultOptions }

/-- The state after the inactivity timer fires for "a". -/
def c10Fire := c10M0.timerFire c10Start.2.2 601000 "a" StopReason.inactivity

/-- C10 counterexample: after the auto-finalize, `hasRecording "a"` is
still true, but a later `finalizeRecording("a", …)` does NOT remove the
entry: it rejects with "Recording already finalized" and leaves the
registry exactly as it was — contradicting the claim that the entry is
removed by a later `finalizeRecording` call invoking `finalize`. -/
theorem auto_finalize_registry_counterexample :
    c10Fire.1.hasRecording "a" = true ∧
    (c10Fire.1.finalizeRecording c10Fire.2.1 700000 "a" (some 0) none).1 =
      Except.error "Recording already finalized" ∧
    (c10Fire.1.finalizeRecording c10Fire.2.1 700000 "a" (some 0) none).2.1 = c10Fire.1 ∧
    (c10Fire.1.finalizeRecording c10Fire.2.1 700000 "a" (some 0) none).2.1.hasRecording "a"
      = true := by
  refine ⟨?_, ?_, ?_, ?_⟩ <;> with_unfolding_all rfl

/-- C10 amended: a timer-triggered auto-finalize leaves the registry's
id→Recorder map unchanged (`hasRecording` answers as before for every id);
a later `finalizeRecording(id, …)` invokes `finalize` on the
already-finalized Recorder, which rejects and leaves the registry and file
system untouched (the entry is not removed); a later `finalizeAll` removes
every entry without invoking `finalize` on non-Active recorders, returning
no metadata for them. -/
theorem auto_finalize_registry_amended :
    (∀ (m : RecordingManager) (fs : FS) (now : ℚ) (id : String)
        (reason : StopReason) (id' : String),
      ((m.timerFire fs now id reason).1).hasRecording id' = m.hasRecording id') ∧
    (∀ (m : RecordingManager) (fs : FS) (now : ℚ) (id : String) (ec : Option ℤ)
        (sr : Option StopReason) (r : Recorder),
      m.getRecording id = some r → r.finalized = true →
      m.finalizeRecording fs now id ec sr =
        (Except.error "Recording already finalized", m, fs)) ∧
    (∀ (m : RecordingManager) (fs : FS) (now : ℚ) (ec : Option ℤ)
        (reason : StopReason),
      (∀ p ∈ m.recordings, p.2.isActive = false) →
      m.finalizeAll fs now ec reason =
        (Except.ok [], { m with recordings := [] }, fs)) := by
  refine ⟨timerFire_hasRecording, finalizeRecording_finalized, ?_⟩
  intro m fs now ec reason h
  unfold RecordingManager.finalizeAll
  rw [finalizeAllAux_inactive m.recordings fs now ec reason h]

/-- The recorder stored under "a" after the C10 timer fired. -/
def c10RecF : Recorder :=
  (c10Start.2.1.autoFinalize c10Start.2.2 601000 StopReason.inactivity).1

/-- Witness for `auto_finalize_registry_amended` at the concrete
post-auto-finalize registry. -/
theorem auto_finalize_registry_amended_witness :
    ((c10Fire.1.timerFire c10Fire.2.1 650000 "a" StopReason.max_duration).1).hasRecording "a"
      = c10Fire.1.hasRecording "a" ∧
    c10Fire.1.finalizeRecording c10Fire.2.1 700000 "a" (some 0) none =
      (Except.error "Recording already finalized", c10Fire.1, c10Fire.2.1) ∧
    c10Fire.1.finalizeAll c10Fire.2.1 700000 (some 0) StopReason.session_exit =
      (Except.ok [], { c10Fire.1 with recordings := [] }, c10Fire.2.1) :=
  ⟨auto_finalize_registry_amended.1 c10Fire.1 c10Fire.2.1 650000 "a"
      StopReason.max_duration "a",
   auto_finalize_registry_amended.2.1 c10Fire.1 c10Fire.2.1 700000 "a" (some 0) none
      c10RecF (by with_unfolding_all rfl)
      (of_decide_eq_true (by with_unfolding_all rfl)),
   auto_finalize_registry_amended.2.2 c10Fire.1 c10Fire.2.1 700000 (some 0)
      StopReason.session_exit
      (of_decide_eq_true (by with_unfolding_all rfl))⟩

end TerminalMcp
